import Mathlib

/-!
Verification of the middle end of the `disco` compiler against its
natural-language specification.

The data models of the three tree representations are embedded directly from
`src/ast.rs`, `src/hir.rs` and `src/ir.rs`; the driver `compile_executable`
and the prelude installation `insert_prelude` are embedded from `src/lib.rs`.
Modules of the repository that are declared in `lib.rs` but whose sources are
not present (`resolve.rs`, `tycheck.rs`, `primitives.rs`, `codegen.rs`) are
modelled from the specification; every such definition carries a doc comment
starting with `Modelled from the spec:`.
-/

namespace Disco

/-- Identifiers: `pub type Ident<'a> = &'a str` (ast.rs). Equality by content. -/
abbrev Ident := String

/-- Bit-pattern model of a Rust `f64`. No claim in this development performs
floating-point arithmetic; only structural (constructor-level) facts about
nodes carrying an `f64` are proved, for which the carrier is opaque data. -/
structure F64 where
  bits : Nat
deriving DecidableEq, Repr

/-- Model of a Rust `i64` value. No claim performs integer arithmetic on it. -/
abbrev I64 := Int

/-- Model of a Rust `u8` byte (element of `Vec<u8>` byte-string literals). -/
abbrev U8 := Fin 256

/-- Modelled from the spec: `resolve.rs` is not under `src/`. `TyId` is the
TypeHandle: "an opaque, densely-assigned integer naming one fully-resolved
type"; two expressions have the same type iff their handles are equal. -/
structure TyId where
  id : Nat
deriving DecidableEq, BEq, Repr

/-- Modelled from the spec: `primitives.rs` is not under `src/`. The six fixed
primitive type handles (unit, bool, int, real, complex, byte-string), densely
assigned. `insert_prelude` refers to them through `decls.prims`. -/
def unitTyId : TyId := TyId.mk 0

/-- Modelled from the spec: the fixed handle of the primitive type `bool`. -/
def boolTyId : TyId := TyId.mk 1

/-- Modelled from the spec: the fixed handle of the primitive type `int`. -/
def intTyId : TyId := TyId.mk 2

/-- Modelled from the spec: the fixed handle of the primitive type `real`. -/
def realTyId : TyId := TyId.mk 3

/-- Modelled from the spec: the fixed handle of the primitive type `complex`. -/
def complexTyId : TyId := TyId.mk 4

/-- Modelled from the spec: the fixed handle of the primitive `byte-string`. -/
def bstrTyId : TyId := TyId.mk 5

namespace Ast

/-- `ast::Ty`: either the unit type or a named type. -/
inductive Ty where
  | Unit
  | Named (name : Ident)
deriving DecidableEq, Repr

/-- `ast::FuncParam`. -/
structure FuncParam where
  name : Ident
  ty : Ty
deriving DecidableEq, Repr

/-- `ast::FuncSig`: the type signature of a function. -/
structure FuncSig where
  return_type : Ty
  params : List FuncParam
deriving DecidableEq, Repr

/-- `ast::IntegerLiteral`: value plus optional "int"/"real" type-hint suffix. -/
structure IntegerLiteral where
  value : I64
  type_hint : Option Ident
deriving DecidableEq, Repr

mutual

/-- `ast::Block`: ordered statements plus an optional trailing expression. -/
inductive Block where
  | mk (stmts : List Stmt) (ret : Option Expr)

/-- `ast::Stmt`. -/
inductive Stmt where
  | Cond (c : Cond)
  | WhileLoop (w : WhileLoop)
  | VarDecl (v : VarDecl)
  | Expr (e : Expr)

/-- `ast::WhileLoop`. -/
inductive WhileLoop where
  | mk (cond : Expr) (body : Block)

/-- `ast::VarDecl`: identifier, optional declared type, initializer. -/
inductive VarDecl where
  | mk (ident : Ident) (ty : Option Ty) (expr : Expr)

/-- `ast::Expr`: surface expressions. Note: the surface assignment target is a
plain identifier (`VarAssign`), and method calls are still present. -/
inductive Expr where
  | VarAssign (a : VarAssign)
  | MethodCall (m : MethodCall)
  | Cond (c : Cond)
  | Call (c : CallExpr)
  | Return (e : Option Expr)
  | BStrLiteral (bytes : List U8)
  | IntegerLiteral (lit : Disco.Ast.IntegerLiteral)
  | RealLiteral (v : F64)
  | ComplexLiteral (v : F64)
  | BoolLiteral (b : Bool)
  | UnitLiteral
  | Var (ident : Ident)

/-- `ast::VarAssign`: an assignment `<name> = <value>`; the target is an
identifier only. -/
inductive VarAssign where
  | mk (ident : Ident) (expr : Expr)

/-- `ast::MethodCall`: `<expr> . <call-expr>`. -/
inductive MethodCall where
  | mk (lhs : Expr) (call : CallExpr)

/-- `ast::Cond`: non-empty `(condition, body)` list plus optional else block. -/
inductive Cond where
  | mk (conds : List (Expr × Block)) (else_body : Option Block)

/-- `ast::CallExpr`. -/
inductive CallExpr where
  | mk (func_name : Ident) (args : List Expr)

end

/-- Projection: the statements of an `ast::Block`. -/
def Block.stmts : Block → List Stmt
  | .mk s _ => s

/-- Projection: the trailing expression of an `ast::Block`. -/
def Block.ret : Block → Option Expr
  | .mk _ r => r

/-- `ast::Function`: name, signature, body and the extern marker.
"The body of the function. Not used if `is_extern` is true." -/
structure Function where
  name : Ident
  sig : FuncSig
  body : Block
  is_extern : Bool

/-- `ast::Function::new_extern`: an extern function has the given name and
signature, a default (empty) body, and the extern marker set. -/
def Function.new_extern (name : Ident) (sig : FuncSig) : Function :=
  { name := name, sig := sig, body := Block.mk [] none, is_extern := true }

/-- `ast::Decl`: top-level declarations of the surface tree (functions only). -/
inductive Decl where
  | Function (f : Function)

/-- `ast::Module`. -/
structure Module where
  decls : List Decl

/-- `ast::Program`. -/
structure Program where
  top_level_module : Module

end Ast

namespace Hir

/-- `hir::Ty`: unit, `Self`, or a named type; still an unresolved spelling. -/
inductive Ty where
  | Unit
  | SelfType
  | Named (name : Ident)
deriving DecidableEq, Repr

/-- `hir::NamedTy`: a type explicitly named with an identifier or `Self`. -/
inductive NamedTy where
  | SelfType
  | Named (name : Ident)
deriving DecidableEq, Repr

/-- `hir::IdentPathBase`: base of an absolute path. -/
inductive IdentPathBase where
  | Package (name : Ident)
  | Root
deriving DecidableEq, Repr

/-- `hir::IdentPath`: absolute (package- or root-based) or relative path. -/
inductive IdentPath where
  | Absolute (segments : List Ident) (base : IdentPathBase)
  | Relative (segments : List Ident)
deriving DecidableEq, Repr

/-- `hir::ImportSelection`. -/
inductive ImportSelection where
  | Names (names : List Ident)
  | All
deriving DecidableEq, Repr

/-- `hir::ImportPath`. -/
structure ImportPath where
  path : IdentPath
  selection : ImportSelection
deriving DecidableEq, Repr

/-- `hir::StructField`: field name and (unresolved) type spelling. -/
structure StructField where
  name : Ident
  ty : Ty
deriving DecidableEq, Repr

/-- `hir::Struct`: struct name and its declared fields, in declared order. -/
structure Struct where
  name : Ident
  fields : List StructField
deriving DecidableEq, Repr

/-- `hir::FuncParam`. -/
structure FuncParam where
  name : Ident
  ty : Ty
deriving DecidableEq, Repr

/-- `hir::FuncSig`. -/
structure FuncSig where
  params : List FuncParam
  return_type : Ty
deriving DecidableEq, Repr

/-- `hir::IntegerLiteral`. -/
structure IntegerLiteral where
  value : I64
  type_hint : Option Ident
deriving DecidableEq, Repr

mutual

/-- `hir::Decl`: declarations of the desugared tree. `Impl` and `Function`
contain blocks, and blocks contain declarations, so `Decl` is recursive. -/
inductive Decl where
  | Import (path : ImportPath)
  | Struct (s : Disco.Hir.Struct)
  | Impl (i : Impl)
  | Function (f : Function)

/-- `hir::Impl`: the `Self` type of the impl block and its method decls. -/
inductive Impl where
  | mk (self_ty : Ty) (methods : List Function)

/-- `hir::Function`. -/
inductive Function where
  | mk (name : Ident) (sig : FuncSig) (body : Block)

/-- `hir::Block`: a block of the desugared tree holds a list of declarations
alongside its statements and optional trailing expression. -/
inductive Block where
  | mk (decls : List Decl) (stmts : List Stmt) (ret : Option Expr)

/-- `hir::Stmt`. -/
inductive Stmt where
  | Cond (c : Cond)
  | WhileLoop (w : WhileLoop)
  | VarDecl (v : VarDecl)
  | Expr (e : Expr)

/-- `hir::WhileLoop`. -/
inductive WhileLoop where
  | mk (cond : Expr) (body : Block)

/-- `hir::VarDecl`. -/
inductive VarDecl where
  | mk (name : Ident) (ty : Option Ty) (expr : Expr)

/-- `hir::Expr`: desugared expressions; method calls and field accesses are
still present, struct literals and `Self` are explicit. -/
inductive Expr where
  | Assign (a : Assign)
  | MethodCall (m : MethodCall)
  | FieldAccess (f : FieldAccess)
  | Cond (c : Cond)
  | Call (c : FuncCall)
  | Return (e : Option Expr)
  | StructLiteral (s : StructLiteral)
  | BStrLiteral (bytes : List U8)
  | IntegerLiteral (lit : Disco.Hir.IntegerLiteral)
  | RealLiteral (v : F64)
  | ComplexLiteral (v : F64)
  | BoolLiteral (b : Bool)
  | UnitLiteral
  | SelfLiteral
  | Var (ident : Ident)

/-- `hir::Assign`: an assignment `<lvalue> = <value>`. -/
inductive Assign where
  | mk (lhs : LValue) (expr : Expr)

/-- `hir::LValue`: expressions that can be on the left-hand side of an
assignment — a field access or a plain variable. -/
inductive LValue where
  | FieldAccess (f : FieldAccess)
  | Var (ident : Ident)

/-- `hir::MethodCall`: `<expr> . <method>(<args>)`. -/
inductive MethodCall where
  | mk (lhs : Expr) (method_name : Ident) (args : List Expr)

/-- `hir::FieldAccess`: `<expr> . <ident>`. -/
inductive FieldAccess where
  | mk (lhs : Expr) (field : Ident)

/-- `hir::Cond`. -/
inductive Cond where
  | mk (conds : List (Expr × Block)) (else_body : Option Block)

/-- `hir::FuncCall`: path-qualified call. -/
inductive FuncCall where
  | mk (func_name : IdentPath) (args : List Expr)

/-- `hir::StructLiteral`. -/
inductive StructLiteral where
  | mk (name : NamedTy) (field_values : List StructFieldValue)

/-- `hir::StructFieldValue`. -/
inductive StructFieldValue where
  | mk (name : Ident) (value : Expr)

end

/-- Projection: the declarations held by a `hir::Block`. -/
def Block.decls : Block → List Decl
  | .mk d _ _ => d

/-- Projection: the statements of a `hir::Block`. -/
def Block.stmts : Block → List Stmt
  | .mk _ s _ => s

/-- Projection: the trailing expression of a `hir::Block`. -/
def Block.ret : Block → Option Expr
  | .mk _ _ r => r

/-- `hir::Block::is_empty`: destructures the block and requires the decls,
the stmts and the trailing expression all to be absent. -/
def Block.is_empty (b : Block) : Bool :=
  match b with
  | .mk decls stmts ret => decls.isEmpty && stmts.isEmpty && ret.isNone

/-- Projection: the body block of a `hir::Function`. -/
def Function.body : Function → Block
  | .mk _ _ b => b

/-- Whether a desugared-tree lvalue is a field-access target (as opposed to a
plain variable target). -/
def LValue.isFieldTarget : LValue → Bool
  | .FieldAccess _ => true
  | .Var _ => false

/-- `hir::Module`. -/
structure Module where
  decls : List Decl

/-- `hir::Package`: an entire compilation unit. -/
structure Package where
  root : Module

end Hir

/-- Extensional model of Rust's `std::collections::HashMap<K, V>`: a finite
key-value association in which insertion order is not observable (Rust's
`HashMap` iteration order is arbitrary and its derived `PartialEq` compares
key-value sets). Insertion with an existing key overwrites the old value. -/
def HashMapModel (K V : Type) : Type := K → Option V

/-- `HashMap::insert`: maps the key to the value, leaving other keys as is. -/
def HashMapModel.insert [DecidableEq K] (m : HashMapModel K V) (k : K) (v : V) :
    HashMapModel K V :=
  fun k2 => if k2 = k then some v else m k2

/-- `HashMap::new`: the empty map. -/
def HashMapModel.empty (K V : Type) : HashMapModel K V := fun _ => none

/-- `HashMap::get`: lookup by key. -/
def HashMapModel.get (m : HashMapModel K V) (k : K) : Option V := m k

namespace Ir

/-- `ir::Struct`: the struct shape recorded in the typed IR — the name and a
`HashMap<Ident, TyId>` from field name to type handle (`ir.rs` lines 26-32). -/
structure Struct where
  name : Ident
  fields : HashMapModel Ident TyId

mutual

/-- `ir::Block`: statements, optional trailing expression, and the block's
return type (stored because the trailing expression is optional). -/
inductive Block where
  | mk (stmts : List Stmt) (ret : Option Expr) (ret_ty : TyId)

/-- `ir::Stmt`. -/
inductive Stmt where
  | Cond (c : Cond)
  | WhileLoop (w : WhileLoop)
  | VarDecl (v : VarDecl)
  | Expr (e : Expr)

/-- `ir::WhileLoop`. -/
inductive WhileLoop where
  | mk (cond : Expr) (body : Block)

/-- `ir::VarDecl`: identifier, its resolved type, and the initializer. -/
inductive VarDecl where
  | mk (ident : Ident) (ty : TyId) (expr : Expr)

/-- `ir::Expr`: the typed IR expressions. Each of the twelve constructors
carries exactly one `TyId`; there is no method-call constructor. -/
inductive Expr where
  | VarAssign (a : VarAssign) (ty : TyId)
  | FieldAccess (f : FieldAccess) (ty : TyId)
  | Cond (c : Cond) (ty : TyId)
  | Call (c : CallExpr) (ty : TyId)
  | Return (e : Option Expr) (ty : TyId)
  | BStrLiteral (bytes : List U8) (ty : TyId)
  | IntegerLiteral (value : I64) (ty : TyId)
  | RealLiteral (v : F64) (ty : TyId)
  | ComplexLiteral (v : F64) (ty : TyId)
  | BoolLiteral (b : Bool) (ty : TyId)
  | UnitLiteral (ty : TyId)
  | Var (ident : Ident) (ty : TyId)

/-- `ir::FieldAccess`. -/
inductive FieldAccess where
  | mk (lhs : Expr) (field : Ident)

/-- `ir::Cond`. -/
inductive Cond where
  | mk (conds : List (Expr × Block)) (else_body : Option Block)

/-- `ir::CallExpr`: path-named callee and argument expressions. -/
inductive CallExpr where
  | mk (func_name : Hir.IdentPath) (args : List Expr)

/-- `ir::VarAssign` (`ir.rs` lines 154-160): the typed IR assignment stores
only the identifier to assign to, and the assigned expression. -/
inductive VarAssign where
  | mk (ident : Ident) (expr : Expr)

end

/-- `ir::Expr::ty_id`: returns the `TyId` stored in each constructor. -/
def Expr.ty_id : Expr → TyId
  | .VarAssign _ ty_id => ty_id
  | .FieldAccess _ ty_id => ty_id
  | .Cond _ ty_id => ty_id
  | .Call _ ty_id => ty_id
  | .Return _ ty_id => ty_id
  | .BStrLiteral _ ty_id => ty_id
  | .IntegerLiteral _ ty_id => ty_id
  | .RealLiteral _ ty_id => ty_id
  | .ComplexLiteral _ ty_id => ty_id
  | .BoolLiteral _ ty_id => ty_id
  | .UnitLiteral ty_id => ty_id
  | .Var _ ty_id => ty_id

/-- Projection: the identifier assigned to by an `ir::VarAssign`. -/
def VarAssign.ident : VarAssign → Ident
  | .mk i _ => i

/-- The target of a typed-IR assignment, read back in the desugared tree's
lvalue vocabulary: `ir::VarAssign` stores only an identifier (`ir.rs` lines
154-160), so its target is always a plain variable. -/
def VarAssign.target (va : VarAssign) : Hir.LValue :=
  Hir.LValue.Var ( VarAssign.ident va)

/-- `ir::FuncParam`. -/
structure FuncParam where
  name : Ident
  ty : TyId

/-- `ir::FuncSig`: fully resolved function signature. -/
structure FuncSig where
  return_type : TyId
  params : List FuncParam

/-- `ir::Function`. -/
structure Function where
  name : Ident
  sig : FuncSig
  body : Block

/-- `ir::Module`. -/
structure Module where
  types : List Struct
  functions : List Function

/-- `ir::Program`. -/
structure Program where
  top_level_module : Module

end Ir

namespace Resolve

/-- Modelled from the spec: `resolve.rs` is not under `src/`. The registry of
top-level declarations: function-name → declaration, and (TypeHandle,
method-name) → declaration, each namespace with unique keys. Insertion order
is kept so that lookups and duplicate checks are explicit. -/
structure ProgramDecls where
  funcs : List Ast.Function
  methods : List (TyId × Ident × Ast.Function)

/-- Modelled from the spec: `resolve::DuplicateDecl` — "`DuplicateDecl{ name,
kind }`", a collection-time error for a repeated name in one namespace. -/
inductive DuplicateDecl where
  | Function (name : Ident)
  | Method (name : Ident)

/-- Modelled from the spec: registering a top-level function; "every name
within one namespace (module functions, ...) is unique; violated uniqueness
is a collection-time error". -/
def insert_func (d : ProgramDecls) (f : Ast.Function) :
    Except DuplicateDecl ProgramDecls :=
  if d.funcs.any (fun g => decide (g.name = f.name)) then
    Except.error (DuplicateDecl.Function f.name)
  else
    Except.ok (ProgramDecls.mk (d.funcs ++ [f]) d.methods)

/-- Modelled from the spec: registering an inherent method "into the method
table keyed by (handle, name)"; a repeated key is a collection-time error. -/
def insert_method (d : ProgramDecls) (ty : TyId) (name : Ident)
    (f : Ast.Function) : Except DuplicateDecl ProgramDecls :=
  if d.methods.any (fun m => decide (m.1 = ty) && decide (m.2.1 = name)) then
    Except.error (DuplicateDecl.Method name)
  else
    Except.ok (ProgramDecls.mk d.funcs (d.methods ++ [(ty, name, f)]))

/-- Modelled from the spec: `resolve::ProgramDecls::new` — collects the user
declarations of the parsed program (the surface tree has function
declarations only) into a fresh registry, failing with `DuplicateDecl` on a
repeated name. Called by `compile_executable` before `insert_prelude`. -/
def ProgramDecls.new (prog : Ast.Program) : Except DuplicateDecl ProgramDecls :=
  prog.top_level_module.decls.foldlM
    (fun d decl =>
      match decl with
      | Ast.Decl.Function f => insert_func d f)
    (ProgramDecls.mk [] [])

/-- Rust `Result::unwrap` applied to an insertion result, as `insert_prelude`
does on every prelude registration: `none` models the panic on `Err`. -/
def unwrapInsert : Except DuplicateDecl ProgramDecls → Option ProgramDecls
  | Except.ok d => some d
  | Except.error _ => none

/-- One registration performed by `insert_prelude` (`lib.rs`): either a free
function (`decls.insert_func(...)`) or an inherent method on a primitive type
handle (`decls.insert_method(prims...., name, ...)`). -/
inductive PreludeEntry where
  | func (f : Ast.Function)
  | method (ty : TyId) (name : Ident) (f : Ast.Function)

/-- The function value registered by a prelude entry. -/
def PreludeEntry.function : PreludeEntry → Ast.Function
  | .func f => f
  | .method _ _ f => f

/-- The free-function name registered by a prelude entry, if it is one. -/
def PreludeEntry.funcName : PreludeEntry → Option Ident
  | .func f => some f.name
  | .method _ _ _ => none

/-- The (handle, method-name) key registered by a prelude entry, if any. -/
def PreludeEntry.methodKey : PreludeEntry → Option (TyId × Ident)
  | .func _ => none
  | .method ty name _ => some (ty, name)

/-- The registrations performed by `insert_prelude` (`lib.rs` lines 72-348),
in source order, with their exact names and signatures. Only the `int`
operations are method registrations; everything else is a free function. -/
def preludeEntries : List PreludeEntry := [
  PreludeEntry.func ( Ast.Function.new_extern "unit_eq" (Ast.FuncSig.mk
    (Ast.Ty.Named "bool")
    [Ast.FuncParam.mk "left" Ast.Ty.Unit, Ast.FuncParam.mk "right" Ast.Ty.Unit])),
  PreludeEntry.func ( Ast.Function.new_extern "print_unit" (Ast.FuncSig.mk
    Ast.Ty.Unit
    [Ast.FuncParam.mk "value" Ast.Ty.Unit])),
  PreludeEntry.func ( Ast.Function.new_extern "bool_eq" (Ast.FuncSig.mk
    (Ast.Ty.Named "bool")
    [Ast.FuncParam.mk "left" (Ast.Ty.Named "bool"),
     Ast.FuncParam.mk "right" (Ast.Ty.Named "bool")])),
  PreludeEntry.func ( Ast.Function.new_extern "bool_and" (Ast.FuncSig.mk
    (Ast.Ty.Named "bool")
    [Ast.FuncParam.mk "left" (Ast.Ty.Named "bool"),
     Ast.FuncParam.mk "right" (Ast.Ty.Named "bool")])),
  PreludeEntry.func ( Ast.Function.new_extern "bool_or" (Ast.FuncSig.mk
    (Ast.Ty.Named "bool")
    [Ast.FuncParam.mk "left" (Ast.Ty.Named "bool"),
     Ast.FuncParam.mk "right" (Ast.Ty.Named "bool")])),
  PreludeEntry.func ( Ast.Function.new_extern "bool_not" (Ast.FuncSig.mk
    (Ast.Ty.Named "bool")
    [Ast.FuncParam.mk "value" (Ast.Ty.Named "bool")])),
  PreludeEntry.func ( Ast.Function.new_extern "print_bool" (Ast.FuncSig.mk
    Ast.Ty.Unit
    [Ast.FuncParam.mk "value" (Ast.Ty.Named "bool")])),
  PreludeEntry.method intTyId "eq" ( Ast.Function.new_extern "int__eq"
    (Ast.FuncSig.mk (Ast.Ty.Named "bool")
    [Ast.FuncParam.mk "self" (Ast.Ty.Named "int"),
     Ast.FuncParam.mk "right" (Ast.Ty.Named "int")])),
  PreludeEntry.method intTyId "gt" ( Ast.Function.new_extern "int__gt"
    (Ast.FuncSig.mk (Ast.Ty.Named "bool")
    [Ast.FuncParam.mk "self" (Ast.Ty.Named "int"),
     Ast.FuncParam.mk "right" (Ast.Ty.Named "int")])),
  PreludeEntry.method intTyId "gte" ( Ast.Function.new_extern "int__gte"
    (Ast.FuncSig.mk (Ast.Ty.Named "bool")
    [Ast.FuncParam.mk "self" (Ast.Ty.Named "int"),
     Ast.FuncParam.mk "right" (Ast.Ty.Named "int")])),
  PreludeEntry.method intTyId "lt" ( Ast.Function.new_extern "int__lt"
    (Ast.FuncSig.mk (Ast.Ty.Named "bool")
    [Ast.FuncParam.mk "self" (Ast.Ty.Named "int"),
     Ast.FuncParam.mk "right" (Ast.Ty.Named "int")])),
  PreludeEntry.method intTyId "lte" ( Ast.Function.new_extern "int__lte"
    (Ast.FuncSig.mk (Ast.Ty.Named "bool")
    [Ast.FuncParam.mk "self" (Ast.Ty.Named "int"),
     Ast.FuncParam.mk "right" (Ast.Ty.Named "int")])),
  PreludeEntry.method intTyId "add" ( Ast.Function.new_extern "int__add"
    (Ast.FuncSig.mk (Ast.Ty.Named "int")
    [Ast.FuncParam.mk "self" (Ast.Ty.Named "int"),
     Ast.FuncParam.mk "other" (Ast.Ty.Named "int")])),
  PreludeEntry.method intTyId "sub" ( Ast.Function.new_extern "int__sub"
    (Ast.FuncSig.mk (Ast.Ty.Named "int")
    [Ast.FuncParam.mk "self" (Ast.Ty.Named "int"),
     Ast.FuncParam.mk "right" (Ast.Ty.Named "int")])),
  PreludeEntry.method intTyId "mul" ( Ast.Function.new_extern "int__mul"
    (Ast.FuncSig.mk (Ast.Ty.Named "int")
    [Ast.FuncParam.mk "self" (Ast.Ty.Named "int"),
     Ast.FuncParam.mk "right" (Ast.Ty.Named "int")])),
  PreludeEntry.method intTyId "div" ( Ast.Function.new_extern "int__div"
    (Ast.FuncSig.mk (Ast.Ty.Named "int")
    [Ast.FuncParam.mk "self" (Ast.Ty.Named "int"),
     Ast.FuncParam.mk "right" (Ast.Ty.Named "int")])),
  PreludeEntry.method intTyId "rem" ( Ast.Function.new_extern "int__rem"
    (Ast.FuncSig.mk (Ast.Ty.Named "int")
    [Ast.FuncParam.mk "self" (Ast.Ty.Named "int"),
     Ast.FuncParam.mk "right" (Ast.Ty.Named "int")])),
  PreludeEntry.method intTyId "neg" ( Ast.Function.new_extern "int__neg"
    (Ast.FuncSig.mk (Ast.Ty.Named "int")
    [Ast.FuncParam.mk "self" (Ast.Ty.Named "int")])),
  PreludeEntry.func ( Ast.Function.new_extern "print_int" (Ast.FuncSig.mk
    Ast.Ty.Unit
    [Ast.FuncParam.mk "value" (Ast.Ty.Named "int")])),
  PreludeEntry.func ( Ast.Function.new_extern "add_real" (Ast.FuncSig.mk
    (Ast.Ty.Named "real")
    [Ast.FuncParam.mk "left" (Ast.Ty.Named "real"),
     Ast.FuncParam.mk "right" (Ast.Ty.Named "real")])),
  PreludeEntry.func ( Ast.Function.new_extern "sub_real" (Ast.FuncSig.mk
    (Ast.Ty.Named "real")
    [Ast.FuncParam.mk "left" (Ast.Ty.Named "real"),
     Ast.FuncParam.mk "right" (Ast.Ty.Named "real")])),
  PreludeEntry.func ( Ast.Function.new_extern "print_real" (Ast.FuncSig.mk
    Ast.Ty.Unit
    [Ast.FuncParam.mk "value" (Ast.Ty.Named "real")])),
  PreludeEntry.func ( Ast.Function.new_extern "add_complex" (Ast.FuncSig.mk
    (Ast.Ty.Named "complex")
    [Ast.FuncParam.mk "left" (Ast.Ty.Named "complex"),
     Ast.FuncParam.mk "right" (Ast.Ty.Named "complex")])),
  PreludeEntry.func ( Ast.Function.new_extern "add_real_complex" (Ast.FuncSig.mk
    (Ast.Ty.Named "complex")
    [Ast.FuncParam.mk "left" (Ast.Ty.Named "real"),
     Ast.FuncParam.mk "right" (Ast.Ty.Named "complex")])),
  PreludeEntry.func ( Ast.Function.new_extern "add_complex_real" (Ast.FuncSig.mk
    (Ast.Ty.Named "complex")
    [Ast.FuncParam.mk "left" (Ast.Ty.Named "complex"),
     Ast.FuncParam.mk "right" (Ast.Ty.Named "real")])),
  PreludeEntry.func ( Ast.Function.new_extern "sub_complex" (Ast.FuncSig.mk
    (Ast.Ty.Named "complex")
    [Ast.FuncParam.mk "left" (Ast.Ty.Named "complex"),
     Ast.FuncParam.mk "right" (Ast.Ty.Named "complex")])),
  PreludeEntry.func ( Ast.Function.new_extern "sub_real_complex" (Ast.FuncSig.mk
    (Ast.Ty.Named "complex")
    [Ast.FuncParam.mk "left" (Ast.Ty.Named "real"),
     Ast.FuncParam.mk "right" (Ast.Ty.Named "complex")])),
  PreludeEntry.func ( Ast.Function.new_extern "sub_complex_real" (Ast.FuncSig.mk
    (Ast.Ty.Named "complex")
    [Ast.FuncParam.mk "left" (Ast.Ty.Named "complex"),
     Ast.FuncParam.mk "right" (Ast.Ty.Named "real")])),
  PreludeEntry.func ( Ast.Function.new_extern "print_complex" (Ast.FuncSig.mk
    Ast.Ty.Unit
    [Ast.FuncParam.mk "value" (Ast.Ty.Named "complex")])),
  PreludeEntry.func ( Ast.Function.new_extern "bstr_len" (Ast.FuncSig.mk
    (Ast.Ty.Named "int")
    [Ast.FuncParam.mk "value" (Ast.Ty.Named "bstr")])),
  PreludeEntry.func ( Ast.Function.new_extern "bstr_eq" (Ast.FuncSig.mk
    (Ast.Ty.Named "bool")
    [Ast.FuncParam.mk "left" (Ast.Ty.Named "bstr"),
     Ast.FuncParam.mk "right" (Ast.Ty.Named "bstr")])),
  PreludeEntry.func ( Ast.Function.new_extern "bstr_gt" (Ast.FuncSig.mk
    (Ast.Ty.Named "bool")
    [Ast.FuncParam.mk "left" (Ast.Ty.Named "bstr"),
     Ast.FuncParam.mk "right" (Ast.Ty.Named "bstr")])),
  PreludeEntry.func ( Ast.Function.new_extern "bstr_gte" (Ast.FuncSig.mk
    (Ast.Ty.Named "bool")
    [Ast.FuncParam.mk "left" (Ast.Ty.Named "bstr"),
     Ast.FuncParam.mk "right" (Ast.Ty.Named "bstr")])),
  PreludeEntry.func ( Ast.Function.new_extern "bstr_lt" (Ast.FuncSig.mk
    (Ast.Ty.Named "bool")
    [Ast.FuncParam.mk "left" (Ast.Ty.Named "bstr"),
     Ast.FuncParam.mk "right" (Ast.Ty.Named "bstr")])),
  PreludeEntry.func ( Ast.Function.new_extern "bstr_lte" (Ast.FuncSig.mk
    (Ast.Ty.Named "bool")
    [Ast.FuncParam.mk "left" (Ast.Ty.Named "bstr"),
     Ast.FuncParam.mk "right" (Ast.Ty.Named "bstr")])),
  PreludeEntry.func ( Ast.Function.new_extern "bstr_concat" (Ast.FuncSig.mk
    (Ast.Ty.Named "bstr")
    [Ast.FuncParam.mk "left" (Ast.Ty.Named "bstr"),
     Ast.FuncParam.mk "right" (Ast.Ty.Named "bstr")])),
  PreludeEntry.func ( Ast.Function.new_extern "bstr_slice" (Ast.FuncSig.mk
    (Ast.Ty.Named "bstr")
    [Ast.FuncParam.mk "string" (Ast.Ty.Named "bstr"),
     Ast.FuncParam.mk "start" (Ast.Ty.Named "int"),
     Ast.FuncParam.mk "end" (Ast.Ty.Named "int")])),
  PreludeEntry.func ( Ast.Function.new_extern "bstr_get" (Ast.FuncSig.mk
    (Ast.Ty.Named "bstr")
    [Ast.FuncParam.mk "string" (Ast.Ty.Named "bstr"),
     Ast.FuncParam.mk "index" (Ast.Ty.Named "int")])),
  PreludeEntry.func ( Ast.Function.new_extern "print_bstr" (Ast.FuncSig.mk
    Ast.Ty.Unit
    [Ast.FuncParam.mk "value" (Ast.Ty.Named "bstr")])),
  PreludeEntry.func ( Ast.Function.new_extern "read_line_bstr" (Ast.FuncSig.mk
    (Ast.Ty.Named "bstr")
    []))]

/-- One registration step of `insert_prelude`: the insertion followed by the
`.unwrap()` (`none` = panic on a duplicate name). -/
def preludeStep (d : ProgramDecls) (e : PreludeEntry) : Option ProgramDecls :=
  match e with
  | PreludeEntry.func f => unwrapInsert (insert_func d f)
  | PreludeEntry.method ty name f => unwrapInsert (insert_method d ty name f)

/-- `lib.rs::insert_prelude`: performs every prelude registration in source
order, calling `.unwrap()` on each insertion result (`none` = panic). -/
def insert_prelude (d : ProgramDecls) : Option ProgramDecls :=
  preludeEntries.foldlM preludeStep d

/-- The free-function names registered by the prelude, in registration order. -/
def preludeFuncNames : List Ident :=
  preludeEntries.filterMap PreludeEntry.funcName

/-- The registry produced by installing the prelude into an empty registry. -/
def preludeDecls : ProgramDecls :=
  (insert_prelude (ProgramDecls.mk [] [])).getD (ProgramDecls.mk [] [])

/-- Modelled from the spec: registry lookup of a top-level function by name. -/
def lookup_func (d : ProgramDecls) (name : Ident) : Option Ast.Function :=
  d.funcs.find? (fun g => decide (g.name = name))

/-- Modelled from the spec: "look up (receiver handle, method name) in the
registry" — the method-table lookup used for method calls. -/
def lookup_method (d : ProgramDecls) (ty : TyId) (name : Ident) :
    Option Ast.Function :=
  (d.methods.find? (fun m => decide (m.1 = ty) && decide (m.2.1 = name))).map
    (fun m => m.2.2)

end Resolve

namespace Tycheck

/-- Modelled from the spec: `tycheck.rs` is not under `src/`. The `TypeError`
taxonomy of §7. -/
inductive TypeError where
  | UnknownVariable (name : Ident)
  | UnknownType (name : Ident)
  | UnknownField (name : Ident)
  | NotAStruct
  | UnknownMethod (receiver : TyId) (name : Ident)
  | ArityMismatch
  | TypeMismatch (expected : TyId) (found : TyId)
  | NonBoolCondition
  | ReturnTypeMismatch
  | MissingField (name : Ident)
  | ExtraField (name : Ident)
  | DuplicateField (name : Ident)

/-- Modelled from the spec: the flattened scope stack seen at one program
point — block-local `name → TypeHandle` bindings, innermost first, so the
nearest enclosing entry is found first and shadows outer ones. -/
abbrev Scope := List (Ident × TyId)

/-- Modelled from the spec: "look up nearest enclosing scope entry by name". -/
def lookup_var (scope : Scope) (name : Ident) : Option TyId :=
  (scope.find? (fun p => decide (p.1 = name))).map (fun p => p.2)

/-- Modelled from the spec: the assignment rule of §4.3 — "target is either a
plain variable (already bound) ...; the assigned expression's handle must
exactly equal the target's current handle; the assignment's own type is
unit" — lowering into the source's typed IR (`ir::VarAssign`), whose target
can only be a plain identifier. `rhs` is the already-checked-and-lowered
assigned expression. -/
def check_var_assign (scope : Scope) (ident : Ident) (rhs : Ir.Expr) :
    Except TypeError Ir.Expr :=
  match lookup_var scope ident with
  | none => Except.error (TypeError.UnknownVariable ident)
  | some t =>
    if Ir.Expr.ty_id rhs = t then
      Except.ok (Ir.Expr.VarAssign (Ir.VarAssign.mk ident rhs) unitTyId)
    else
      Except.error (TypeError.TypeMismatch t (Ir.Expr.ty_id rhs))

/-- Modelled from the spec: the second collection pass resolves every struct
field's declared type spelling to a handle, in declared order, and records
the struct shape into `ir::Struct`'s field map (a `HashMap<Ident, TyId>`).
`resolved` is the declared field list with each spelling already resolved. -/
def collect_struct_fields (resolved : List (Ident × TyId)) :
    HashMapModel Ident TyId :=
  resolved.foldl (fun m p => m.insert p.1 p.2) (HashMapModel.empty Ident TyId)

end Tycheck

/-- The pipeline stages invoked by `compile_executable` (`lib.rs` lines
48-63), in a trace. -/
inductive Stage where
  | ReadFile
  | Parse
  | CollectDecls
  | InsertPrelude
  | TypeCheck
  | CodeGen
deriving DecidableEq, BEq, Repr

namespace Lib

/-- `lib.rs::Error`: one variant per pipeline stage, each carrying the source
file path and the stage's own error. -/
inductive Error (P IOE PE DE TE CE : Type) where
  | IOError (path : P) (source : IOE)
  | ParseError (path : P) (source : PE)
  | DuplicateDecl (path : P) (source : DE)
  | TypeError (path : P) (source : TE)
  | CodeGenerationError (path : P) (source : CE)
deriving DecidableEq

/-- The collaborator operations `compile_executable` composes, with the types
they work over. Reading the file and parsing, checking and code generation
are external collaborators or missing sources, so they are oracles here; the
declaration collection and prelude installation slots are instantiated with
the concrete `Resolve` model where a claim needs them. `insert_prelude`
returns `Option` because its unwraps can panic (`none`). -/
structure Driver where
  Text : Type
  AstT : Type
  DeclsT : Type
  IrT : Type
  CodeT : Type
  IOErr : Type
  ParseErr : Type
  DupErr : Type
  TyErr : Type
  CgErr : Type
  read_to_string : Except IOErr Text
  parse : Text → Except ParseErr AstT
  decls_new : AstT → Except DupErr DeclsT
  prelude_insert : DeclsT → Option DeclsT
  infer_and_check : DeclsT → Except TyErr IrT
  executable : IrT → DeclsT → Except CgErr CodeT

/-- The path type handed to the driver. -/
abbrev Path := String

/-- The result type of the modelled driver: `none` is a panic escaping
`compile_executable`; `some` is the returned `Result`. -/
abbrev CompileResult (D : Driver) :=
  Option (Except (Error Path D.IOErr D.ParseErr D.DupErr D.TyErr D.CgErr) D.CodeT)

/-- `lib.rs::compile_executable`: reads the file, parses, collects the user
declarations, installs the prelude, type-checks and generates code, in that
order, wrapping each stage's error with the file path via `with_context` and
stopping at the first failure (`?`). The second component records which
stages were invoked, in order. -/
def compile_executable (D : Driver) (path : Path) :
    CompileResult D × List Stage :=
  match D.read_to_string with
  | Except.error e =>
    (some (Except.error (Error.IOError path e)), [Stage.ReadFile])
  | Except.ok text =>
    match D.parse text with
    | Except.error e =>
      (some (Except.error (Error.ParseError path e)),
       [Stage.ReadFile, Stage.Parse])
    | Except.ok program =>
      match D.decls_new program with
      | Except.error e =>
        (some (Except.error (Error.DuplicateDecl path e)),
         [Stage.ReadFile, Stage.Parse, Stage.CollectDecls])
      | Except.ok decls =>
        match D.prelude_insert decls with
        | none =>
          (none,
           [Stage.ReadFile, Stage.Parse, Stage.CollectDecls,
            Stage.InsertPrelude])
        | some decls2 =>
          match D.infer_and_check decls2 with
          | Except.error e =>
            (some (Except.error (Error.TypeError path e)),
             [Stage.ReadFile, Stage.Parse, Stage.CollectDecls,
              Stage.InsertPrelude, Stage.TypeCheck])
          | Except.ok program_ir =>
            match D.executable program_ir decls2 with
            | Except.error e =>
              (some (Except.error (Error.CodeGenerationError path e)),
               [Stage.ReadFile, Stage.Parse, Stage.CollectDecls,
                Stage.InsertPrelude, Stage.TypeCheck, Stage.CodeGen])
            | Except.ok code =>
              (some (Except.ok code),
               [Stage.ReadFile, Stage.Parse, Stage.CollectDecls,
                Stage.InsertPrelude, Stage.TypeCheck, Stage.CodeGen])

/-- The full invocation order of a successful compilation. -/
def fullStageOrder : List Stage :=
  [Stage.ReadFile, Stage.Parse, Stage.CollectDecls, Stage.InsertPrelude,
   Stage.TypeCheck, Stage.CodeGen]

end Lib

/-- A driver instantiation that feeds the given already-parsed program into
the concrete `Resolve` model of declaration collection and prelude
installation; type checking and code generation are trivially succeeding
oracles (they are never reached by the claims using this driver, or their
outcome is irrelevant to them). -/
def userDriver (prog : Ast.Program) : Lib.Driver :=
  { Text := PUnit
    AstT := Ast.Program
    DeclsT := Resolve.ProgramDecls
    IrT := PUnit
    CodeT := PUnit
    IOErr := PUnit
    ParseErr := PUnit
    DupErr := Resolve.DuplicateDecl
    TyErr := PUnit
    CgErr := PUnit
    read_to_string := Except.ok PUnit.unit
    parse := fun _ => Except.ok prog
    decls_new := Resolve.ProgramDecls.new
    prelude_insert := Resolve.insert_prelude
    infer_and_check := fun _ => Except.ok PUnit.unit
    executable := fun _ _ => Except.ok PUnit.unit }

/-- A driver whose parse stage fails, all other collaborators trivial. -/
def parseFailDriver : Lib.Driver :=
  { Text := PUnit
    AstT := PUnit
    DeclsT := PUnit
    IrT := PUnit
    CodeT := PUnit
    IOErr := PUnit
    ParseErr := PUnit
    DupErr := PUnit
    TyErr := PUnit
    CgErr := PUnit
    read_to_string := Except.ok PUnit.unit
    parse := fun _ => Except.error PUnit.unit
    decls_new := fun _ => Except.ok PUnit.unit
    prelude_insert := fun d => some d
    infer_and_check := fun _ => Except.ok PUnit.unit
    executable := fun _ _ => Except.ok PUnit.unit }

/-- A user program declaring a single ordinary function `main`. -/
def userProgMain : Ast.Program :=
  Ast.Program.mk (Ast.Module.mk
    [Ast.Decl.Function
      { name := "main"
        sig := Ast.FuncSig.mk Ast.Ty.Unit []
        body := Ast.Block.mk [] none
        is_extern := false }])

/-- A user program declaring an ordinary function named `print_int` — the
same name as a function the prelude registers. -/
def userProgClash : Ast.Program :=
  Ast.Program.mk (Ast.Module.mk
    [Ast.Decl.Function
      { name := "print_int"
        sig := Ast.FuncSig.mk Ast.Ty.Unit [Ast.FuncParam.mk "value" (Ast.Ty.Named "int")]
        body := Ast.Block.mk [] none
        is_extern := false }])

/-- A desugared-tree block whose declaration list is non-empty: it holds a
struct declaration next to its (empty) statements. -/
def nestedDeclBlock : Hir.Block :=
  Hir.Block.mk [Hir.Decl.Struct (Hir.Struct.mk "Inner" [])] [] none

/-- A desugared-tree function whose body block contains a declaration. -/
def fnWithNestedDecl : Hir.Function :=
  Hir.Function.mk "main" (Hir.FuncSig.mk [] Hir.Ty.Unit) nestedDeclBlock

/-- A full desugared-tree package containing `fnWithNestedDecl`. -/
def pkgWithNestedDecl : Hir.Package :=
  Hir.Package.mk (Hir.Module.mk [Hir.Decl.Function fnWithNestedDecl])

/-- C4: every typed-IR expression node is one of the twelve constructors of
`ir::Expr` — there is no method-call constructor — and each carries exactly
one `TyId`, which is what `ir::Expr::ty_id` returns for it. -/
theorem typed_ir_single_ty_id_no_method_call :
    ∀ e : Ir.Expr,
      (∃ a t, e = Ir.Expr.VarAssign a t ∧ Ir.Expr.ty_id e = t) ∨
      (∃ f t, e = Ir.Expr.FieldAccess f t ∧ Ir.Expr.ty_id e = t) ∨
      (∃ c t, e = Ir.Expr.Cond c t ∧ Ir.Expr.ty_id e = t) ∨
      (∃ c t, e = Ir.Expr.Call c t ∧ Ir.Expr.ty_id e = t) ∨
      (∃ r t, e = Ir.Expr.Return r t ∧ Ir.Expr.ty_id e = t) ∨
      (∃ b t, e = Ir.Expr.BStrLiteral b t ∧ Ir.Expr.ty_id e = t) ∨
      (∃ v t, e = Ir.Expr.IntegerLiteral v t ∧ Ir.Expr.ty_id e = t) ∨
      (∃ v t, e = Ir.Expr.RealLiteral v t ∧ Ir.Expr.ty_id e = t) ∨
      (∃ v t, e = Ir.Expr.ComplexLiteral v t ∧ Ir.Expr.ty_id e = t) ∨
      (∃ b t, e = Ir.Expr.BoolLiteral b t ∧ Ir.Expr.ty_id e = t) ∨
      (∃ t, e = Ir.Expr.UnitLiteral t ∧ Ir.Expr.ty_id e = t) ∨
      (∃ i t, e = Ir.Expr.Var i t ∧ Ir.Expr.ty_id e = t) := by
  intro e
  cases e with
  | VarAssign a t => exact Or.inl ⟨a, t, rfl, rfl⟩
  | FieldAccess f t => exact Or.inr (Or.inl ⟨f, t, rfl, rfl⟩)
  | Cond c t => exact Or.inr (Or.inr (Or.inl ⟨c, t, rfl, rfl⟩))
  | Call c t => exact Or.inr (Or.inr (Or.inr (Or.inl ⟨c, t, rfl, rfl⟩)))
  | Return r t =>
    exact Or.inr (Or.inr (Or.inr (Or.inr (Or.inl ⟨r, t, rfl, rfl⟩))))
  | BStrLiteral b t =>
    exact Or.inr (Or.inr (Or.inr (Or.inr (Or.inr (Or.inl ⟨b, t, rfl, rfl⟩)))))
  | IntegerLiteral v t =>
    exact Or.inr (Or.inr (Or.inr (Or.inr (Or.inr (Or.inr (Or.inl
      ⟨v, t, rfl, rfl⟩))))))
  | RealLiteral v t =>
    exact Or.inr (Or.inr (Or.inr (Or.inr (Or.inr (Or.inr (Or.inr (Or.inl
      ⟨v, t, rfl, rfl⟩)))))))
  | ComplexLiteral v t =>
    exact Or.inr (Or.inr (Or.inr (Or.inr (Or.inr (Or.inr (Or.inr (Or.inr
      (Or.inl ⟨v, t, rfl, rfl⟩))))))))
  | BoolLiteral b t =>
    exact Or.inr (Or.inr (Or.inr (Or.inr (Or.inr (Or.inr (Or.inr (Or.inr
      (Or.inr (Or.inl ⟨b, t, rfl, rfl⟩)))))))))
  | UnitLiteral t =>
    exact Or.inr (Or.inr (Or.inr (Or.inr (Or.inr (Or.inr (Or.inr (Or.inr
      (Or.inr (Or.inr (Or.inl ⟨t, rfl, rfl⟩))))))))))
  | Var i t =>
    exact Or.inr (Or.inr (Or.inr (Or.inr (Or.inr (Or.inr (Or.inr (Or.inr
      (Or.inr (Or.inr (Or.inr ⟨i, t, rfl, rfl⟩))))))))))

/-- C10: at every stage (surface tree, desugared tree, typed IR) a complex
literal node stores exactly one `f64` component — the node is fully
determined by that single component (and, in the typed IR, its handle) — so
independent real and imaginary parts cannot be expressed in one node. -/
theorem complex_literal_single_component :
    (∀ a b : F64, Ast.Expr.ComplexLiteral a = Ast.Expr.ComplexLiteral b ↔ a = b) ∧
    (∀ a b : F64, Hir.Expr.ComplexLiteral a = Hir.Expr.ComplexLiteral b ↔ a = b) ∧
    (∀ (a b : F64) (t u : TyId),
      Ir.Expr.ComplexLiteral a t = Ir.Expr.ComplexLiteral b u ↔ a = b ∧ t = u) := by
  refine ⟨fun a b => ?_, fun a b => ?_, fun a b t u => ?_⟩
  · constructor
    · intro h
      injection h
    · intro h
      rw [h]
  · constructor
    · intro h
      injection h
    · intro h
      rw [h]
  · constructor
    · intro h
      injection h with h1 h2
      exact ⟨h1, h2⟩
    · intro h
      rw [h.1, h.2]

/-- C9 counterexample: the desugared tree does not confine declarations to
module level — `hir::Block` itself stores a list of declarations, and a
well-formed package whose function body block contains a struct declaration
exists; `hir::Block::is_empty` even accounts for such nested declarations. -/
theorem desugared_block_holds_decls_counterexample :
    Hir.Block.decls ( Hir.Function.body fnWithNestedDecl) =
      [Hir.Decl.Struct (Hir.Struct.mk "Inner" [])] ∧
    Hir.Block.is_empty nestedDeclBlock = false ∧
    pkgWithNestedDecl.root.decls.length = 1 :=
  ⟨rfl, rfl, rfl⟩

/-- C9 (amended): within each desugared-tree block, declarations are kept
structurally separate from executable code — a block is a triple of a
declaration list, a statement list and an optional trailing expression, and
`hir::Block::is_empty` holds exactly when all three are absent — but
declarations may appear inside any block, not only at module level. -/
theorem block_separates_decls_is_empty :
    ∀ b : Hir.Block,
      Hir.Block.is_empty b = true ↔
        Hir.Block.decls b = [] ∧ Hir.Block.stmts b = [] ∧
        Hir.Block.ret b = none := by
  intro b
  cases b with
  | mk d s r =>
    cases d <;> cases s <;> cases r <;>
      simp [Hir.Block.is_empty, Hir.Block.decls, Hir.Block.stmts, Hir.Block.ret]

/-- C5 counterexample: the typed IR cannot represent an assignment whose
target is a field access. The concrete desugared-tree lvalue `s.x` is a
field target, yet the target of a typed-IR assignment, read back as an
lvalue, is never a field target — `ir::VarAssign` stores only a plain
identifier, so the target-is-a-field reading of typed-IR assignments is the
constantly-false function. -/
theorem ir_assign_target_never_field_counterexample :
    Hir.LValue.isFieldTarget
        (Hir.LValue.FieldAccess (Hir.FieldAccess.mk (Hir.Expr.Var "s") "x")) =
      true ∧
    (fun va => Hir.LValue.isFieldTarget (Ir.VarAssign.target va)) =
      (fun _ : Ir.VarAssign => false) := by
  refine ⟨rfl, ?_⟩
  funext va
  cases va with
  | mk i e => rfl

/-- C8: every function and method the prelude registers is an extern
declaration: it is built by `ast::Function::new_extern`, which sets
`is_extern`, keeps the declared name and full signature, and leaves the body
empty (no statements, no trailing expression); every one of the prelude's
registrations has that shape. -/
theorem prelude_entries_all_extern_empty_body :
    (∀ (n : Ident) (s : Ast.FuncSig),
      Ast.Function.is_extern ( Ast.Function.new_extern n s) = true ∧
      Ast.Function.body ( Ast.Function.new_extern n s) = Ast.Block.mk [] none ∧
      Ast.Function.sig ( Ast.Function.new_extern n s) = s ∧
      Ast.Function.name ( Ast.Function.new_extern n s) = n) ∧
    Resolve.preludeEntries.all
      (fun e =>
        Ast.Function.is_extern (Resolve.PreludeEntry.function e) &&
        (Ast.Block.stmts ( Ast.Function.body (Resolve.PreludeEntry.function e))).isEmpty &&
        (Ast.Block.ret ( Ast.Function.body (Resolve.PreludeEntry.function e))).isNone) =
      true := by
  constructor
  · intro n s
    exact ⟨rfl, rfl, rfl, rfl⟩
  · rfl

/-- C1 counterexample: in `compile_executable`, user declarations are
collected (`ProgramDecls::new`, the `CollectDecls` stage) strictly before the
Primitive Registry's operation table is installed (`insert_prelude`): on a
compilation of a program declaring `fn main`, the invocation trace places
`CollectDecls` at position 2 and `InsertPrelude` at position 3 — so the
prelude is not installed before user declarations are processed. -/
theorem collect_runs_before_prelude_counterexample :
    (Lib.compile_executable (userDriver userProgMain) "main.disco").2 =
      Lib.fullStageOrder ∧
    Lib.fullStageOrder.indexOf Stage.CollectDecls = 2 ∧
    Lib.fullStageOrder.indexOf Stage.InsertPrelude = 3 := by
  refine ⟨?_, rfl, rfl⟩
  decide

/-- C2 counterexample: the prelude does not register the built-in surface of
every primitive type as inherent methods: after the prelude is installed into
an empty registry, the method-table lookups `(real, add)` and `(bstr, len)`
find nothing — those operations exist only as the free functions `add_real`
and `bstr_len`. -/
theorem real_add_not_a_method_counterexample :
    (Resolve.insert_prelude (Resolve.ProgramDecls.mk [] [])).isSome = true ∧
    (Resolve.lookup_method Resolve.preludeDecls realTyId "add").isNone = true ∧
    (Resolve.lookup_method Resolve.preludeDecls bstrTyId "len").isNone = true ∧
    (Resolve.lookup_func Resolve.preludeDecls "add_real").isSome = true ∧
    (Resolve.lookup_func Resolve.preludeDecls "bstr_len").isSome = true := by
  refine ⟨?_, ?_, ?_, ?_, ?_⟩ <;> decide

/-- C2 (amended): the prelude registers exactly the eleven `int` operations
as inherent methods keyed by `(int handle, name)` — resolvable through the
registry's `(receiver handle, method name)` lookup — while the operations of
unit, bool, real, complex and byte-string are registered as free extern
functions under type-prefixed names. -/
theorem prelude_method_and_func_surface :
    Resolve.preludeDecls.methods.map (fun m => (m.1, m.2.1)) =
      [(intTyId, "eq"), (intTyId, "gt"), (intTyId, "gte"), (intTyId, "lt"),
       (intTyId, "lte"), (intTyId, "add"), (intTyId, "sub"), (intTyId, "mul"),
       (intTyId, "div"), (intTyId, "rem"), (intTyId, "neg")] ∧
    Resolve.preludeDecls.funcs.map (fun f => f.name) =
      ["unit_eq", "print_unit", "bool_eq", "bool_and", "bool_or", "bool_not",
       "print_bool", "print_int", "add_real", "sub_real", "print_real",
       "add_complex", "add_real_complex", "add_complex_real", "sub_complex",
       "sub_real_complex", "sub_complex_real", "print_complex", "bstr_len",
       "bstr_eq", "bstr_gt", "bstr_gte", "bstr_lt", "bstr_lte", "bstr_concat",
       "bstr_slice", "bstr_get", "print_bstr", "read_line_bstr"] ∧
    (Resolve.lookup_method Resolve.preludeDecls intTyId "add").isSome = true := by
  refine ⟨?_, ?_, ?_⟩ <;> decide

/-- C3 counterexample: `compile_executable` does not always return a result
value — on a program declaring an ordinary user function named `print_int`,
collection succeeds, and then `insert_prelude`'s `.unwrap()` on the failing
duplicate insertion of the prelude's own `print_int` panics (modelled as
`none`): the pipeline aborts after the `InsertPrelude` stage with no `Ok`
and no `Error` value. -/
theorem prelude_name_clash_panics_counterexample :
    (Lib.compile_executable (userDriver userProgClash) "main.disco").1.isNone =
      true ∧
    (Lib.compile_executable (userDriver userProgClash) "main.disco").2 =
      [Stage.ReadFile, Stage.Parse, Stage.CollectDecls, Stage.InsertPrelude] := by
  refine ⟨?_, ?_⟩ <;> decide

/-- C7: `compile_executable` composes read-file, parse, collect, prelude
installation, type-check and code generation in exactly that order — every
invocation trace is a prefix (`take n`) of the full stage order — and
whenever one of the four specified stages returns an error, the function
returns that stage's error wrapped with the source file path and invokes no
later stage. -/
theorem compile_stage_order_first_error_wins (D : Lib.Driver) (path : Lib.Path) :
    (∃ n, (Lib.compile_executable D path).2 = Lib.fullStageOrder.take n) ∧
    (∀ text e, D.read_to_string = Except.ok text →
      D.parse text = Except.error e →
      Lib.compile_executable D path =
        (some (Except.error (Lib.Error.ParseError path e)),
         [Stage.ReadFile, Stage.Parse])) ∧
    (∀ text program e, D.read_to_string = Except.ok text →
      D.parse text = Except.ok program →
      D.decls_new program = Except.error e →
      Lib.compile_executable D path =
        (some (Except.error (Lib.Error.DuplicateDecl path e)),
         [Stage.ReadFile, Stage.Parse, Stage.CollectDecls])) ∧
    (∀ text program decls decls2 e, D.read_to_string = Except.ok text →
      D.parse text = Except.ok program →
      D.decls_new program = Except.ok decls →
      D.prelude_insert decls = some decls2 →
      D.infer_and_check decls2 = Except.error e →
      Lib.compile_executable D path =
        (some (Except.error (Lib.Error.TypeError path e)),
         [Stage.ReadFile, Stage.Parse, Stage.CollectDecls,
          Stage.InsertPrelude, Stage.TypeCheck])) ∧
    (∀ text program decls decls2 ir e, D.read_to_string = Except.ok text →
      D.parse text = Except.ok program →
      D.decls_new program = Except.ok decls →
      D.prelude_insert decls = some decls2 →
      D.infer_and_check decls2 = Except.ok ir →
      D.executable ir decls2 = Except.error e →
      Lib.compile_executable D path =
        (some (Except.error (Lib.Error.CodeGenerationError path e)),
         Lib.fullStageOrder)) := by
  refine ⟨?_, ?_, ?_, ?_, ?_⟩
  · cases hr : D.read_to_string with
    | error e =>
      exact ⟨1, by simp [Lib.compile_executable, hr, Lib.fullStageOrder]⟩
    | ok text =>
      cases hp : D.parse text with
      | error e =>
        exact ⟨2, by simp [Lib.compile_executable, hr, hp, Lib.fullStageOrder]⟩
      | ok program =>
        cases hd : D.decls_new program with
        | error e =>
          exact ⟨3, by simp [Lib.compile_executable, hr, hp, hd,
            Lib.fullStageOrder]⟩
        | ok decls =>
          cases hpre : D.prelude_insert decls with
          | none =>
            exact ⟨4, by simp [Lib.compile_executable, hr, hp, hd, hpre,
              Lib.fullStageOrder]⟩
          | some decls2 =>
            cases hty : D.infer_and_check decls2 with
            | error e =>
              exact ⟨5, by simp [Lib.compile_executable, hr, hp, hd, hpre, hty,
                Lib.fullStageOrder]⟩
            | ok ir =>
              cases hcg : D.executable ir decls2 with
              | error e =>
                exact ⟨6, by simp [Lib.compile_executable, hr, hp, hd, hpre,
                  hty, hcg, Lib.fullStageOrder]⟩
              | ok code =>
                exact ⟨6, by simp [Lib.compile_executable, hr, hp, hd, hpre,
                  hty, hcg, Lib.fullStageOrder]⟩
  · intro text e hr hp
    simp [Lib.compile_executable, hr, hp]
  · intro text program e hr hp hd
    simp [Lib.compile_executable, hr, hp, hd]
  · intro text program decls decls2 e hr hp hd hpre hty
    simp [Lib.compile_executable, hr, hp, hd, hpre, hty]
  · intro text program decls decls2 ir e hr hp hd hpre hty hcg
    simp [Lib.compile_executable, hr, hp, hd, hpre, hty, hcg,
      Lib.fullStageOrder]

/-- Witness for C7 at a concrete driver whose parse stage fails: the result
is the parse error wrapped with the path, and neither collection, checking
nor code generation is invoked. -/
theorem compile_stage_order_first_error_wins_witness :
    Lib.compile_executable parseFailDriver "main.disco" =
      (some (Except.error (Lib.Error.ParseError "main.disco" PUnit.unit)),
       [Stage.ReadFile, Stage.Parse]) :=
  (compile_stage_order_first_error_wins parseFailDriver "main.disco").2.1
    PUnit.unit PUnit.unit rfl rfl

/-- C1 (amended): the Primitive Registry's operation table is installed by
`insert_prelude` after user declarations have been collected and before type
checking runs: whenever the `InsertPrelude` stage is invoked at all, the
trace up to it is exactly read-file, parse, collect, insert-prelude. -/
theorem prelude_installed_between_collect_and_check
    (D : Lib.Driver) (path : Lib.Path)
    (h : Stage.InsertPrelude ∈ (Lib.compile_executable D path).2) :
    (Lib.compile_executable D path).2.take 4 =
      [Stage.ReadFile, Stage.Parse, Stage.CollectDecls, Stage.InsertPrelude] := by
  cases hr : D.read_to_string with
  | error e => simp [Lib.compile_executable, hr] at h
  | ok text =>
    cases hp : D.parse text with
    | error e => simp [Lib.compile_executable, hr, hp] at h
    | ok program =>
      cases hd : D.decls_new program with
      | error e => simp [Lib.compile_executable, hr, hp, hd] at h
      | ok decls =>
        cases hpre : D.prelude_insert decls with
        | none => simp [Lib.compile_executable, hr, hp, hd, hpre]
        | some decls2 =>
          cases hty : D.infer_and_check decls2 with
          | error e => simp [Lib.compile_executable, hr, hp, hd, hpre, hty]
          | ok ir =>
            cases hcg : D.executable ir decls2 with
            | error e =>
              simp [Lib.compile_executable, hr, hp, hd, hpre, hty, hcg]
            | ok code =>
              simp [Lib.compile_executable, hr, hp, hd, hpre, hty, hcg]

/-- Witness for the amended C1 at the concrete `fn main` compilation. -/
theorem prelude_installed_between_collect_and_check_witness :
    (Lib.compile_executable (userDriver userProgMain) "main.disco").2.take 4 =
      [Stage.ReadFile, Stage.Parse, Stage.CollectDecls, Stage.InsertPrelude] :=
  prelude_installed_between_collect_and_check (userDriver userProgMain)
    "main.disco" (by
      have h2 : (Lib.compile_executable (userDriver userProgMain) "main.disco").2 =
          Lib.fullStageOrder := by decide
      rw [h2]
      simp [Lib.fullStageOrder])

/-- Helper: a run of prelude registrations succeeds (no unwrap panics) when
the registered free-function names and method keys are internally duplicate
free and fresh with respect to the registry they are inserted into. -/
theorem foldlM_preludeStep_isSome (entries : List Resolve.PreludeEntry) :
    ∀ d : Resolve.ProgramDecls,
      (entries.filterMap Resolve.PreludeEntry.funcName).Nodup →
      (entries.filterMap Resolve.PreludeEntry.methodKey).Nodup →
      (∀ n ∈ entries.filterMap Resolve.PreludeEntry.funcName,
        ∀ g ∈ d.funcs, g.name ≠ n) →
      (∀ k ∈ entries.filterMap Resolve.PreludeEntry.methodKey,
        ∀ m ∈ d.methods, (m.1, m.2.1) ≠ k) →
      (entries.foldlM Resolve.preludeStep d).isSome = true := by
  induction entries with
  | nil =>
    intro d _ _ _ _
    rfl
  | cons e es ih =>
    intro d hfn hmn hdf hdm
    cases e with
    | func f =>
      have hconsf : (Resolve.PreludeEntry.func f :: es).filterMap
          Resolve.PreludeEntry.funcName =
          f.name :: es.filterMap Resolve.PreludeEntry.funcName := by
        simp [Resolve.PreludeEntry.funcName]
      have hconsm : (Resolve.PreludeEntry.func f :: es).filterMap
          Resolve.PreludeEntry.methodKey =
          es.filterMap Resolve.PreludeEntry.methodKey := by
        simp [Resolve.PreludeEntry.methodKey]
      rw [hconsf] at hfn hdf
      rw [hconsm] at hmn hdm
      have hfresh : d.funcs.any (fun g => decide (g.name = f.name)) = false := by
        simp only [List.any_eq_false, decide_eq_true_eq]
        intro g hg
        exact hdf f.name (List.mem_cons_self _ _) g hg
      have hstep : Resolve.preludeStep d (Resolve.PreludeEntry.func f) =
          some (Resolve.ProgramDecls.mk (d.funcs ++ [f]) d.methods) := by
        simp [Resolve.preludeStep, Resolve.insert_func, hfresh,
          Resolve.unwrapInsert]
      rw [List.foldlM_cons, hstep]
      show (es.foldlM Resolve.preludeStep
        (Resolve.ProgramDecls.mk (d.funcs ++ [f]) d.methods)).isSome = true
      apply ih
      · exact (List.nodup_cons.mp hfn).2
      · exact hmn
      · intro n hn g hg
        rcases List.mem_append.mp hg with hg1 | hg2
        · exact hdf n (List.mem_cons_of_mem _ hn) g hg1
        · have hgf : g = f := by simpa using hg2
          subst hgf
          intro hEq
          exact (List.nodup_cons.mp hfn).1 (hEq ▸ hn)
      · intro k hk m hm
        exact hdm k hk m hm
    | method ty mname f =>
      have hconsf : (Resolve.PreludeEntry.method ty mname f :: es).filterMap
          Resolve.PreludeEntry.funcName =
          es.filterMap Resolve.PreludeEntry.funcName := by
        simp [Resolve.PreludeEntry.funcName]
      have hconsm : (Resolve.PreludeEntry.method ty mname f :: es).filterMap
          Resolve.PreludeEntry.methodKey =
          (ty, mname) :: es.filterMap Resolve.PreludeEntry.methodKey := by
        simp [Resolve.PreludeEntry.methodKey]
      rw [hconsf] at hfn hdf
      rw [hconsm] at hmn hdm
      have hfresh : d.methods.any
          (fun m => decide (m.1 = ty) && decide (m.2.1 = mname)) = false := by
        simp only [List.any_eq_false]
        intro m hm hb
        rw [Bool.and_eq_true, decide_eq_true_eq, decide_eq_true_eq] at hb
        exact hdm (ty, mname) (List.mem_cons_self _ _) m hm
          (by rw [hb.1, hb.2])
      have hstep : Resolve.preludeStep d
          (Resolve.PreludeEntry.method ty mname f) =
          some (Resolve.ProgramDecls.mk d.funcs
            (d.methods ++ [(ty, mname, f)])) := by
        simp [Resolve.preludeStep, Resolve.insert_method, hfresh,
          Resolve.unwrapInsert]
      rw [List.foldlM_cons, hstep]
      show (es.foldlM Resolve.preludeStep
        (Resolve.ProgramDecls.mk d.funcs
          (d.methods ++ [(ty, mname, f)]))).isSome = true
      apply ih
      · exact hfn
      · exact (List.nodup_cons.mp hmn).2
      · intro n hn g hg
        exact hdf n hn g hg
      · intro k hk m hm
        rcases List.mem_append.mp hm with hm1 | hm2
        · exact hdm k (List.mem_cons_of_mem _ hk) m hm1
        · have hmf : m = (ty, mname, f) := by simpa using hm2
          subst hmf
          intro hEq
          exact (List.nodup_cons.mp hmn).1 (hEq ▸ hk)

/-- Helper: collecting the surface declarations registers only top-level
functions drawn from the program and never touches the method table. -/
theorem collect_funcs_shape (ds : List Ast.Decl) :
    ∀ (d0 d : Resolve.ProgramDecls),
      ds.foldlM
        (fun d decl =>
          match decl with
          | Ast.Decl.Function f => Resolve.insert_func d f) d0 =
        Except.ok d →
      d.methods = d0.methods ∧
      (∀ g ∈ d.funcs, g ∈ d0.funcs ∨ Ast.Decl.Function g ∈ ds) := by
  induction ds with
  | nil =>
    intro d0 d h
    have hd : d0 = d := by
      simpa [List.foldlM, pure, Except.pure] using h
    subst hd
    exact ⟨rfl, fun g hg => Or.inl hg⟩
  | cons decl ds ih =>
    intro d0 d h
    cases decl with
    | Function f =>
      have h1 : Resolve.insert_func d0 f >>=
          (fun init => ds.foldlM
            (fun d decl =>
              match decl with
              | Ast.Decl.Function f => Resolve.insert_func d f) init) =
          Except.ok d := h
      by_cases hdup : d0.funcs.any (fun g => decide (g.name = f.name)) = true
      · have hins : Resolve.insert_func d0 f =
            Except.error (Resolve.DuplicateDecl.Function f.name) := by
          simp [Resolve.insert_func, hdup]
        rw [hins] at h1
        have h2 : (Except.error (Resolve.DuplicateDecl.Function f.name) :
            Except Resolve.DuplicateDecl Resolve.ProgramDecls) =
            Except.ok d := h1
        exact Except.noConfusion h2
      · have hins : Resolve.insert_func d0 f =
            Except.ok (Resolve.ProgramDecls.mk (d0.funcs ++ [f]) d0.methods) := by
          simp [Resolve.insert_func, hdup]
        rw [hins] at h1
        have h2 : ds.foldlM
            (fun d decl =>
              match decl with
              | Ast.Decl.Function f => Resolve.insert_func d f)
            (Resolve.ProgramDecls.mk (d0.funcs ++ [f]) d0.methods) =
            Except.ok d := h1
        rcases ih _ _ h2 with ⟨hm, hfun⟩
        refine ⟨hm, ?_⟩
        intro g hg
        rcases hfun g hg with hg1 | hg2
        · rcases List.mem_append.mp hg1 with hga | hgb
          · exact Or.inl hga
          · have hgf : g = f := by simpa using hgb
            rw [hgf]
            exact Or.inr (List.mem_cons_self _ _)
        · exact Or.inr (List.mem_cons_of_mem _ hg2)

/-- C3 (amended): every pipeline stage reports failure by returning a result
value, except that prelude installation unwraps its insertions: for any
program whose user function names avoid the prelude's function names,
`compile_executable` returns a value (`Ok` or an `Error` variant, never a
panic); the excluded collision case panics, as the counterexample shows. -/
theorem no_clash_no_panic (prog : Ast.Program) (path : Lib.Path)
    (hf : ∀ f, Ast.Decl.Function f ∈ prog.top_level_module.decls →
      f.name ∉ Resolve.preludeFuncNames) :
    (Lib.compile_executable (userDriver prog) path).1.isSome = true := by
  cases hd : Resolve.ProgramDecls.new prog with
  | error e =>
    simp [Lib.compile_executable, userDriver, hd]
  | ok d =>
    have hd2 : prog.top_level_module.decls.foldlM
        (fun d decl =>
          match decl with
          | Ast.Decl.Function f => Resolve.insert_func d f)
        (Resolve.ProgramDecls.mk [] []) = Except.ok d := hd
    rcases collect_funcs_shape prog.top_level_module.decls _ _ hd2 with
      ⟨hm, hfun⟩
    have hpre : (Resolve.insert_prelude d).isSome = true := by
      apply foldlM_preludeStep_isSome
      · decide
      · decide
      · intro n hn g hg
        rcases hfun g hg with hg1 | hg2
        · simp at hg1
        · intro hEq
          exact hf g hg2 (hEq ▸ hn)
      · intro k hk m hm2
        rw [hm] at hm2
        simp at hm2
    cases hpre2 : Resolve.insert_prelude d with
    | none =>
      rw [hpre2] at hpre
      simp at hpre
    | some d2 =>
      simp [Lib.compile_executable, userDriver, hd, hpre2]

/-- Witness for the amended C3: the `fn main` program has no name collision
with the prelude, and its compilation returns a result value. -/
theorem no_clash_no_panic_witness :
    (Lib.compile_executable (userDriver userProgMain) "main.disco").1.isSome =
      true :=
  no_clash_no_panic userProgMain "main.disco" (by
    intro f hmem
    simp [userProgMain] at hmem
    subst hmem
    decide)

/-- C5 (amended): for an assignment whose target is a plain already-bound
variable, if the assigned expression's handle equals the variable's current
handle then checking succeeds, the lowered typed IR is a `VarAssign` node
with that identifier as target, and the assignment's own type is unit; a
field-access target is not representable in the typed IR (see the
counterexample). -/
theorem var_assign_check_ok (scope : Tycheck.Scope) (ident : Ident)
    (rhs : Ir.Expr) (t : TyId)
    (h1 : Tycheck.lookup_var scope ident = some t)
    (h2 : Ir.Expr.ty_id rhs = t) :
    Tycheck.check_var_assign scope ident rhs =
      Except.ok (Ir.Expr.VarAssign (Ir.VarAssign.mk ident rhs) unitTyId) ∧
    Ir.Expr.ty_id
      (Ir.Expr.VarAssign (Ir.VarAssign.mk ident rhs) unitTyId) = unitTyId ∧
    Ir.VarAssign.target (Ir.VarAssign.mk ident rhs) = Hir.LValue.Var ident := by
  refine ⟨?_, rfl, rfl⟩
  simp [Tycheck.check_var_assign, h1, h2]

/-- Witness for the amended C5: assigning the int literal `1` to a variable
`x` bound at the int handle succeeds, lowers to a `VarAssign` targeting `x`,
and the assignment's own type is unit. -/
theorem var_assign_check_ok_witness :
    Tycheck.check_var_assign [("x", intTyId)] "x"
        (Ir.Expr.IntegerLiteral 1 intTyId) =
      Except.ok (Ir.Expr.VarAssign
        (Ir.VarAssign.mk "x" (Ir.Expr.IntegerLiteral 1 intTyId)) unitTyId) ∧
    Ir.Expr.ty_id (Ir.Expr.VarAssign
      (Ir.VarAssign.mk "x" (Ir.Expr.IntegerLiteral 1 intTyId)) unitTyId) =
      unitTyId ∧
    Ir.VarAssign.target
        (Ir.VarAssign.mk "x" (Ir.Expr.IntegerLiteral 1 intTyId)) =
      Hir.LValue.Var "x" :=
  var_assign_check_ok [("x", intTyId)] "x"
    (Ir.Expr.IntegerLiteral 1 intTyId) intTyId rfl rfl

/-- Helper: folding map insertions over entries none of which carries the
looked-up key leaves that key's value unchanged. -/
theorem foldl_insert_not_mem (l : List (Ident × TyId)) :
    ∀ (m : HashMapModel Ident TyId) (k : Ident),
      (∀ p ∈ l, p.1 ≠ k) →
      (l.foldl (fun m p => m.insert p.1 p.2) m) k = m k := by
  induction l with
  | nil =>
    intro m k _
    rfl
  | cons p l ih =>
    intro m k hk
    rw [List.foldl_cons]
    rw [ih _ k (fun q hq => hk q (List.mem_cons_of_mem p hq))]
    have hne : ¬(k = p.1) := fun h =>
      hk p (List.mem_cons_self p l) h.symm
    simp [HashMapModel.insert, hne]

/-- Helper: with duplicate-free keys, folding the insertions of a field list
over any base map makes each listed key map to its listed value. -/
theorem foldl_insert_mem (l : List (Ident × TyId)) :
    ∀ (m : HashMapModel Ident TyId) (n : Ident) (t : TyId),
      (l.map Prod.fst).Nodup → (n, t) ∈ l →
      (l.foldl (fun m p => m.insert p.1 p.2) m) n = some t := by
  induction l with
  | nil =>
    intro m n t _ hmem
    simp at hmem
  | cons p l ih =>
    intro m n t hnd hmem
    rw [List.foldl_cons]
    rcases List.mem_cons.mp hmem with hEq | htail
    · have hp1 : p.1 = n := by rw [← hEq]
      have hp2 : p.2 = t := by rw [← hEq]
      have hnotin : ∀ q ∈ l, q.1 ≠ n := by
        intro q hq hqn
        have hhead : p.1 ∉ l.map Prod.fst :=
          (List.nodup_cons.mp (by simpa using hnd)).1
        exact hhead (hp1 ▸ hqn ▸ List.mem_map_of_mem Prod.fst hq)
      rw [foldl_insert_not_mem l _ n hnotin]
      simp [HashMapModel.insert, hp1, hp2]
    · exact ih _ n t (List.nodup_cons.mp (by simpa using hnd)).2 htail

/-- C6 (amended): the struct shape recorded after collection is an unordered
field-name → TypeHandle map: each field name resolves to at most one handle,
and when the declared field names are distinct, looking up any declared name
yields its declared handle regardless of position; the declared order itself
is not preserved (see the counterexample). -/
theorem struct_shape_lookup_correct (resolved : List (Ident × TyId))
    (hnd : (resolved.map Prod.fst).Nodup) (n : Ident) (t : TyId)
    (hmem : (n, t) ∈ resolved) :
    HashMapModel.get (Tycheck.collect_struct_fields resolved) n = some t :=
  foldl_insert_mem resolved (HashMapModel.empty Ident TyId) n t hnd hmem

/-- Witness for the amended C6 at a concrete two-field struct shape. -/
theorem struct_shape_lookup_correct_witness :
    HashMapModel.get
        (Tycheck.collect_struct_fields [("a", intTyId), ("b", boolTyId)])
        "b" = some boolTyId :=
  struct_shape_lookup_correct [("a", intTyId), ("b", boolTyId)] (by decide)
    "b" boolTyId (by simp)

/-- C6 counterexample: the recorded struct shape does not preserve the
declared field order — collecting the same two fields in the two opposite
declared orders yields identical shapes (a `HashMap` keyed by field name),
even though the declared field lists differ. -/
theorem struct_shape_forgets_field_order_counterexample :
    Tycheck.collect_struct_fields [("x", intTyId), ("y", boolTyId)] =
      Tycheck.collect_struct_fields [("y", boolTyId), ("x", intTyId)] ∧
    ([("x", intTyId), ("y", boolTyId)] : List (Ident × TyId)) ≠
      [("y", boolTyId), ("x", intTyId)] := by
  constructor
  · funext k
    rcases eq_or_ne k "x" with hx | hx
    · subst hx
      decide
    · rcases eq_or_ne k "y" with hy | hy
      · subst hy
        decide
      · simp [Tycheck.collect_struct_fields, List.foldl,
          HashMapModel.insert, HashMapModel.empty, hx, hy]
  · decide

end Disco
